import Mathlib

/-!
Verification development for the TMDBMirror repository (shahid-alt/recsys).

Part I embeds the React frontend API layer and pages that are present in
the repository source (`frontend/src/api/tmdb.js`,
`frontend/src/pages/SearchPage.jsx`, `frontend/src/pages/PeoplePage.jsx`,
`frontend/src/pages/MovieDetail.jsx`).

Part II models the ingestion pipeline (the `fetch_*.py` stage scripts,
which are documented in the repository README and the specification but
whose source files are not included): the retry/backoff classifier, the
batch writer with transactional flush, the stage runner, the
orchestrator, and the bounded worker pool.
-/

namespace RecSys

/-! ## Part I: frontend API layer and pages -/

/-- JavaScript truthiness restricted to the string-valued filter fields used
by the frontend: the empty string is falsy, every other string is truthy
(an omitted field is modelled as the empty string, matching the frontend
state initialisation `searchParams.get(...) || ''`). -/
def truthy (s : String) : Bool := !(s == "")

/-- The options object accepted by `searchMovies` in
`frontend/src/api/tmdb.js`: `{ page = 1, year, language, genre, status }`.
A field left out of the call site is the default: `page` defaults to `1`,
the string filters default to the empty (falsy) string. -/
structure SearchOpts where
  page : Nat := 1
  year : String := ""
  language : String := ""
  genre : String := ""
  status : String := ""
  deriving Repr, DecidableEq

/-- An HTTP GET request as issued by the axios layer: a URL path and the
`params` object, modelled as an association list in insertion order. -/
structure Request where
  url : String
  params : List (String × String)
  deriving Repr, DecidableEq

/-- Keys of the `params` object of a request, in insertion order. -/
def paramKeys (r : Request) : List String := r.params.map Prod.fst

/-- `searchMovies` from `frontend/src/api/tmdb.js` lines 8-15:
builds `params = { query, page }`, then conditionally adds each of
`year`, `language`, `genre`, `status` when (and only when) the supplied
value is truthy, and issues `GET /movies/search/` with those params. -/
def searchMovies (query : String) (opts : SearchOpts) : Request :=
  { url := "/movies/search/"
    params :=
      [("query", query), ("page", toString opts.page)]
      ++ (if truthy opts.year then [("year", opts.year)] else [])
      ++ (if truthy opts.language then [("language", opts.language)] else [])
      ++ (if truthy opts.genre then [("genre", opts.genre)] else [])
      ++ (if truthy opts.status then [("status", opts.status)] else []) }

/-- The filter state of `SearchPage` (`frontend/src/pages/SearchPage.jsx`):
five string fields, each initialised from the URL or the empty string. -/
structure Filters where
  query : String
  year : String
  language : String
  genre : String
  status : String
  deriving Repr, DecidableEq

/-- `hasActiveFilters` from `SearchPage.jsx` lines 67-69: true when any of
the five filter fields is truthy. -/
def hasActiveFilters (f : Filters) : Bool :=
  truthy f.query || truthy f.year || truthy f.language || truthy f.genre || truthy f.status

/-- The payload of a successful search response as consumed by
`SearchPage.jsx`: `data.results` (movie ids, abstracted) and
`data.total_count`. -/
structure SearchResponse where
  results : List Nat
  total_count : Nat
  deriving Repr, DecidableEq

/-- The observable effect of one run of the `search` closure in
`SearchPage.jsx` lines 36-65: which request (if any) is issued, and the
resulting `movies` and `totalPages` state. When no filter is active the
effect is an early return: no request, `movies := []`, `totalPages := 1`.
Otherwise `searchMovies` is called with the filter fields and, on the
response, `totalPages := Math.ceil(total_count / 20)` (natural-number
ceiling division by the fixed constant 20). -/
structure SearchEffect where
  request : Option Request
  movies : List Nat
  totalPages : Nat
  deriving Repr, DecidableEq

/-- One run of the `search` closure of `SearchPage.jsx` against a fixed
response `resp` (the response the backend would return to the issued
request; unused on the no-filter early-return path). -/
def searchPageSearch (f : Filters) (currentPage : Nat) (resp : SearchResponse) : SearchEffect :=
  if hasActiveFilters f then
    { request := some (searchMovies f.query
        { page := currentPage, year := f.year, language := f.language,
          genre := f.genre, status := f.status })
      movies := resp.results
      totalPages := (resp.total_count + 19) / 20 }
  else
    { request := none, movies := [], totalPages := 1 }

/-- A credit row as consumed by `MovieDetail.jsx`: a unique credit id and
the referenced person id. -/
structure Credit where
  id : Nat
  person_id : Nat
  deriving Repr, DecidableEq

/-- `[...new Set(creditsResponse.data.map(c => c.person_id))]` from
`MovieDetail.jsx` line 26: the distinct person ids of a credits list, in
first-occurrence order (JavaScript `Set` iteration order). -/
def uniquePersonIds (ids : List Nat) : List Nat :=
  ids.foldl (fun acc i => if i ∈ acc then acc else acc ++ [i]) []

/-- The cast-details map built by `MovieDetail.jsx` lines 26-41: one
person-details request per unique person id; a request that succeeds maps
the id to its data (`some`), a request that fails is caught per person and
maps the id to `null` (`none`) instead of failing the page load. The
oracle `fetch` returns `none` exactly when the request for that id fails. -/
def buildCastDetails (fetch : Nat → Option Nat) (credits : List Credit) :
    List (Nat × Option Nat) :=
  (uniquePersonIds (credits.map (·.person_id))).map (fun i => (i, fetch i))

/-! ## Part II: the ingestion pipeline

The pipeline stage scripts themselves are not part of the shipped source
tree; the definitions below are modelled from the specification of the
pipeline (retry/backoff classifier, bounded worker pool, batch writer,
progress tracker, stage orchestrator). -/

/-- Modelled from the spec: the error taxonomy of the retry/backoff
classifier (spec 4.3) for the missing `fetch_*.py` pipeline scripts.
`rateLimit`, `serverError`, `connReset`, `handshake` are the transient
shapes; `notFound` and `parseFailure` the permanent ones; `auth` the
authentication/authorization failure. -/
inductive FetchError where
  | rateLimit
  | serverError
  | connReset
  | handshake
  | notFound
  | parseFailure
  | auth
  deriving Repr, DecidableEq

/-- Modelled from the spec: the tagged classification result
(spec 4.3, `classify(error) → {Transient, Permanent, Fatal}`). -/
inductive ErrClass where
  | Transient
  | Permanent
  | Fatal
  deriving Repr, DecidableEq

/-- Modelled from the spec: the classifier of spec 4.3. Fatal:
authentication/authorization failure. Transient: rate-limit, server
error, connection reset, handshake failure. Permanent: not-found or
parse failure. -/
def classify : FetchError → ErrClass
  | .rateLimit => .Transient
  | .serverError => .Transient
  | .connReset => .Transient
  | .handshake => .Transient
  | .notFound => .Permanent
  | .parseFailure => .Permanent
  | .auth => .Fatal

/-- The result of one fetch-and-parse attempt of a work item: a parsed
record or a fetch error. -/
inductive Attempt (α : Type) where
  | ok : α → Attempt α
  | err : FetchError → Attempt α
  deriving Repr, DecidableEq

/-- Whether an attempt result is a failure the classifier marks
Transient. -/
def isTransient : Attempt α → Bool
  | .err e => classify e == .Transient
  | .ok _ => false

/-- The terminal disposition of a work item after the retry loop:
success with a record, permanently failed (recorded in the failed-id
list), or fatal (aborts the run). -/
inductive Outcome (α : Type) where
  | success : α → Outcome α
  | permanent
  | fatal
  deriving Repr, DecidableEq

/-- Modelled from the spec: the retry loop of spec 4.3 for the missing
pipeline scripts, counting attempts. `fuel` is the remaining attempt
budget and `k` the index of the next attempt; `attempt k` is the result
of the `k`-th fetch attempt of this item. A transient failure consumes
one attempt and retries; a permanent failure stops at once; a fatal
failure aborts; an exhausted budget demotes the item to `permanent`. -/
def retryGo (attempt : Nat → Attempt α) : Nat → Nat → Outcome α
  | 0, _ => .permanent
  | fuel + 1, k =>
    match attempt k with
    | .ok a => .success a
    | .err e =>
      match classify e with
      | .Transient => retryGo attempt fuel (k + 1)
      | .Permanent => .permanent
      | .Fatal => .fatal

/-- Modelled from the spec: a work item's full retry loop with a maximum
attempt count (spec 4.3; default 5), starting at attempt 0. -/
def retryLoop (maxAttempts : Nat) (attempt : Nat → Attempt α) : Outcome α :=
  retryGo attempt maxAttempts 0

/-- Modelled from the spec: the default maximum attempt count of the
classifier (spec 4.3). -/
def defaultMaxAttempts : Nat := 5

/-- One row buffered by the Batch Writer, across the table families of
the data model (spec 3): an entity (movie) row, an entity-category
(movie-genre) join row, an association (credit) row with its derived
unique id and its entity/person references, or a person row. -/
inductive Row where
  | entity (id : Nat)
  | entityCat (entityId : Nat) (catId : Nat)
  | assoc (assocId : Nat) (entityId : Nat) (personId : Nat)
  | person (id : Nat)
  deriving Repr, DecidableEq

/-- Modelled from the spec: the relational store produced by the
pipeline (spec 3 and 6): Genre, Entity, EntityCategory, Association and
Person tables. Tables are kept as lists in insertion order; primary-key
uniqueness is maintained by the conflict-tolerant insert. -/
structure DB where
  genres : List Nat
  entities : List Nat
  entityCats : List (Nat × Nat)
  assocs : List (Nat × Nat × Nat)
  people : List Nat
  deriving Repr, DecidableEq

/-- Modelled from the spec: insertion of one buffered row inside a flush
(spec 4.4): conflict-tolerant (an existing primary key is silently
skipped), and integrity-checked (an entity-category row requires both
referenced ids to exist, an association row requires its entity to exist
— the person may not yet; spec 3). A row that violates a referential
invariant is rejected without aborting the rest of the batch and its
offending identifier is returned for the failed-id report. -/
def insertRow (db : DB) : Row → DB × Option Nat
  | .entity i =>
    if i ∈ db.entities then (db, none)
    else ({ db with entities := db.entities ++ [i] }, none)
  | .entityCat e c =>
    if e ∈ db.entities ∧ c ∈ db.genres then
      if (e, c) ∈ db.entityCats then (db, none)
      else ({ db with entityCats := db.entityCats ++ [(e, c)] }, none)
    else (db, some e)
  | .assoc a e p =>
    if e ∈ db.entities then
      if (a, e, p) ∈ db.assocs then (db, none)
      else ({ db with assocs := db.assocs ++ [(a, e, p)] }, none)
    else (db, some a)
  | .person i =>
    if i ∈ db.people then (db, none)
    else ({ db with people := db.people ++ [i] }, none)

/-- Modelled from the spec: sequential application of a buffer of rows
inside one transaction, collecting the identifiers rejected by the
per-row integrity check (spec 4.4). -/
def applyRows (db : DB) : List Row → DB × List Nat
  | [] => (db, [])
  | r :: rs =>
    let step := insertRow db r
    let rest := applyRows step.1 rs
    (rest.1, step.2.toList ++ rest.2)

/-- The result of one `flush()`: the database afterwards, the
identifiers rejected by the integrity check (reported to the Progress
Tracker as failed), and whether the transaction committed. -/
structure FlushResult where
  db : DB
  rejected : List Nat
  committed : Bool
  deriving Repr, DecidableEq

/-- Modelled from the spec: the body of the flush transaction
(spec 4.4 and 5). Rows are applied one at a time to the working state;
`failAt = some j` simulates a database failure immediately before the
`j`-th row insertion, which makes the whole transaction fail (`none`). -/
def tryApplyRows (failAt : Option Nat) : DB → List Nat → List Row → Nat → Option (DB × List Nat)
  | db, rejs, [], _ => some (db, rejs)
  | db, rejs, r :: rs, k =>
    if failAt = some k then none
    else
      let step := insertRow db r
      tryApplyRows failAt step.1 (rejs ++ step.2.toList) rs (k + 1)

/-- Modelled from the spec: `flush()` of the Batch Writer (spec 4.4):
one atomic transaction over the whole buffer. If the transaction body
fails (simulated by `failAt`), the transaction rolls back: the database
is unchanged and nothing was committed; otherwise every buffered row has
been applied (inserted, or skipped/rejected by the conflict and
integrity rules) in one commit. -/
def flush (db : DB) (buffer : List Row) (failAt : Option Nat) : FlushResult :=
  match tryApplyRows failAt db [] buffer 0 with
  | some done => { db := done.1, rejected := done.2, committed := true }
  | none => { db := db, rejected := [], committed := false }

/-- Modelled from the spec: the conflict-tolerant insert of one entity
row (spec 4.4), as used by the detail-fetch stage. -/
def insertEntity (db : DB) (i : Nat) : DB := (insertRow db (.entity i)).1

/-- The running state of one stage: the database, the succeeded count,
the failed-id list accumulated by the Progress Tracker, and whether a
fatal error surfaced. -/
structure RunState where
  db : DB
  succeeded : Nat
  failed : List Nat
  fatal : Bool
  deriving Repr

/-- Modelled from the spec: processing of the pending work items of a
stage (spec 4.1 and 4.5). Each item's terminal disposition is given by
`outcome` (the worker pool plus retry loop, abstracted to its terminal
result): a success commits the entity row, a permanent failure records
the id in the failed-id list and the stage continues, a fatal result
stops accepting new work at once and surfaces the fatal error. -/
def process (outcome : Nat → Outcome Unit) : DB → List Nat → RunState
  | db, [] => ⟨db, 0, [], false⟩
  | db, i :: rest =>
    match outcome i with
    | .success _ =>
      let s := process outcome (insertEntity db i) rest
      { s with succeeded := s.succeeded + 1 }
    | .permanent =>
      let s := process outcome db rest
      { s with failed := i :: s.failed }
    | .fatal => ⟨db, 0, [], true⟩

/-- `StageResult{succeeded, skipped, failed}` of spec 4.1. -/
structure StageResult where
  succeeded : Nat
  skipped : Nat
  failed : List Nat
  deriving Repr, DecidableEq

/-- A completed `runStage` invocation: the database afterwards, the
stage result, and whether a fatal error surfaced. -/
structure StageRun where
  db : DB
  result : StageResult
  fatal : Bool
  deriving Repr

/-- Modelled from the spec: the resumability pre-filter of spec 4.1 —
work items whose identifier is already persisted in the stage's target
table are excluded before submission. -/
def pendingItems (db : DB) (items : List Nat) : List Nat :=
  items.filter (fun i => decide (i ∉ db.entities))

/-- Modelled from the spec: `runStage(stageSpec, workItems)` of spec 4.1
for the detail-fetch stage family: filter the work items against the
already-persisted identifiers, process the pending ones, and return the
counts (already-present items are counted as skipped) and failed-id
list. -/
def runStage (outcome : Nat → Outcome Unit) (db : DB) (items : List Nat) : StageRun :=
  let pending := pendingItems db items
  let s := process outcome db pending
  ⟨s.db, ⟨s.succeeded, items.length - pending.length, s.failed⟩, s.fatal⟩

/-- One stage of the multi-stage run: its terminal-outcome oracle and
its work items. -/
structure StageSpec where
  outcome : Nat → Outcome Unit
  items : List Nat

/-- A full pipeline run: final database, the results of the stages that
executed, and whether a fatal error aborted the run. -/
structure PipelineRun where
  db : DB
  results : List StageResult
  fatal : Bool

/-- Modelled from the spec: the Stage Orchestrator (spec 2 and 4.1):
stages run in their fixed order; a stage that surfaces a fatal error
aborts the entire multi-stage run, so no subsequent stage executes;
otherwise the pipeline proceeds to the next stage unconditionally, even
when the failed-id list is non-empty. -/
def runAll : DB → List StageSpec → PipelineRun
  | db, [] => ⟨db, [], false⟩
  | db, st :: rest =>
    let sr := runStage st.outcome db st.items
    if sr.fatal then ⟨sr.db, [sr.result], true⟩
    else
      let pr := runAll sr.db rest
      ⟨pr.db, sr.result :: pr.results, pr.fatal⟩

/-- Modelled from the spec: the CLI exit code (spec 6): 0 on stage
completion regardless of a non-empty failed-id list, non-zero on a fatal
error. -/
def exitCode (fatal : Bool) : Nat := if fatal then 1 else 0

/-- The observable counters of the bounded worker pool: tasks submitted
and waiting for a slot, tasks currently executing, tasks finished. -/
structure PoolState where
  queued : Nat
  inFlight : Nat
  done : Nat
  deriving Repr, DecidableEq

/-- Modelled from the spec: the transition relation of the Bounded Fetch
Worker Pool with concurrency ceiling `N` (spec 4.2): a submission always
queues (backpressure, not rejection); a queued task starts only when a
slot is free (`inFlight < N`); a running task may finish, freeing its
slot. -/
inductive PoolStep (N : Nat) : PoolState → PoolState → Prop where
  | submit (s : PoolState) : PoolStep N s ⟨s.queued + 1, s.inFlight, s.done⟩
  | start (s : PoolState) (hq : 0 < s.queued) (hn : s.inFlight < N) :
      PoolStep N s ⟨s.queued - 1, s.inFlight + 1, s.done⟩
  | finish (s : PoolState) (hf : 0 < s.inFlight) :
      PoolStep N s ⟨s.queued, s.inFlight - 1, s.done + 1⟩

/-- The initial pool state: nothing queued, nothing in flight. -/
def poolInit : PoolState := ⟨0, 0, 0⟩

/-- The states the pool can reach from the initial state by any
interleaving of submissions, starts and completions. -/
def PoolReachable (N : Nat) : PoolState → Prop :=
  Relation.ReflTransGen (PoolStep N) poolInit

/-! ## Theorems -/

theorem retryGo_success (attempt : Nat → Attempt α) (a : α) :
    ∀ (m fuel k : Nat), m < fuel → (∀ j, j < m → isTransient (attempt (k + j)) = true) →
      attempt (k + m) = .ok a → retryGo attempt fuel k = .success a := by
  intro m
  induction m with
  | zero =>
    intro fuel k hm htr hok
    obtain ⟨f, rfl⟩ : ∃ f, fuel = f + 1 := ⟨fuel - 1, by omega⟩
    rw [Nat.add_zero] at hok
    simp [retryGo, hok]
  | succ m ih =>
    intro fuel k hm htr hok
    obtain ⟨f, rfl⟩ : ∃ f, fuel = f + 1 := ⟨fuel - 1, by omega⟩
    have h0 := htr 0 (by omega)
    rw [Nat.add_zero] at h0
    cases hat : attempt k with
    | ok b => rw [hat] at h0; simp [isTransient] at h0
    | err e =>
      rw [hat] at h0
      simp only [isTransient, beq_iff_eq] at h0
      simp only [retryGo, hat, h0]
      exact ih f (k + 1) (by omega)
        (fun j hj => by
          have h2 := htr (j + 1) (by omega)
          rwa [show k + (j + 1) = k + 1 + j by omega] at h2)
        (by rwa [show k + 1 + m = k + (m + 1) by omega])

theorem retryGo_transient (attempt : Nat → Attempt α) :
    ∀ (fuel k : Nat), (∀ j, j < fuel → isTransient (attempt (k + j)) = true) →
      retryGo attempt fuel k = .permanent := by
  intro fuel
  induction fuel with
  | zero => intro k _; rfl
  | succ f ih =>
    intro k htr
    have h0 := htr 0 (by omega)
    rw [Nat.add_zero] at h0
    cases hat : attempt k with
    | ok b => rw [hat] at h0; simp [isTransient] at h0
    | err e =>
      rw [hat] at h0
      simp only [isTransient, beq_iff_eq] at h0
      simp only [retryGo, hat, h0]
      exact ih (k + 1) (fun j hj => by
        have h2 := htr (j + 1) (by omega)
        rwa [show k + (j + 1) = k + 1 + j by omega] at h2)

/-- Claim C3: a work item whose first N-1 fetch attempts fail transiently
and whose N-th attempt succeeds, with N at most the configured maximum
attempt count (default 5), terminates as a success; a work item whose
transient failures fill the whole attempt budget is demoted to the
Permanent outcome, which the stage runner records in the failed-id list
without aborting the stage (the fatal flag and the database are those of
the remaining items). -/
theorem retry_correct :
    (∀ (α : Type) (maxAttempts N : Nat) (attempt : Nat → Attempt α) (a : α),
      0 < N → N ≤ maxAttempts →
      (∀ j, j < N - 1 → isTransient (attempt j) = true) →
      attempt (N - 1) = .ok a →
      retryLoop maxAttempts attempt = .success a) ∧
    (∀ (α : Type) (maxAttempts : Nat) (attempt : Nat → Attempt α),
      (∀ j, j < maxAttempts → isTransient (attempt j) = true) →
      retryLoop maxAttempts attempt = .permanent) ∧
    (∀ (oc : Nat → Outcome Unit) (db : DB) (i : Nat) (rest : List Nat),
      oc i = .permanent →
      (process oc db (i :: rest)).failed = i :: (process oc db rest).failed ∧
      (process oc db (i :: rest)).fatal = (process oc db rest).fatal ∧
      (process oc db (i :: rest)).db = (process oc db rest).db) := by
  refine ⟨?_, ?_, ?_⟩
  · intro α maxA N attempt a hN hle htr hok
    exact retryGo_success attempt a (N - 1) maxA 0 (by omega)
      (fun j hj => by simpa using htr j hj) (by simpa using hok)
  · intro α maxA attempt htr
    exact retryGo_transient attempt maxA 0 (fun j hj => by simpa using htr j hj)
  · intro oc db i rest h
    refine ⟨?_, ?_, ?_⟩ <;> simp [process, h]

/-- Concrete instance of `retry_correct`: two transient rate-limit
failures followed by a success succeed within 5 attempts; five transient
failures exhaust the default budget and demote to permanent; a permanent
item is prepended to the failed-id list. -/
theorem retry_correct_witness :
    retryLoop 5 (fun k => if k < 2 then Attempt.err FetchError.rateLimit else Attempt.ok ()) =
      Outcome.success () ∧
    retryLoop 5 (fun _ => (Attempt.err FetchError.serverError : Attempt Unit)) =
      Outcome.permanent ∧
    (process (fun _ => Outcome.permanent) ⟨[], [], [], [], []⟩ [7]).failed =
      7 :: (process (fun _ => Outcome.permanent) ⟨[], [], [], [], []⟩ []).failed := by
  refine ⟨?_, ?_, ?_⟩
  · exact retry_correct.1 Unit 5 3 _ () (by decide) (by decide) (by decide) (by decide)
  · exact retry_correct.2.1 Unit 5 _ (by decide)
  · exact (retry_correct.2.2 (fun _ => Outcome.permanent) ⟨[], [], [], [], []⟩ 7 [] rfl).1

theorem tryApplyRows_some (failAt : Option Nat) :
    ∀ (rows : List Row) (db : DB) (rejs : List Nat) (k : Nat) (out : DB × List Nat),
      tryApplyRows failAt db rejs rows k = some out →
      out.1 = (applyRows db rows).1 ∧ out.2 = rejs ++ (applyRows db rows).2 := by
  intro rows
  induction rows with
  | nil =>
    intro db rejs k out h
    simp only [tryApplyRows, Option.some.injEq] at h
    simp [applyRows, ← h]
  | cons r rs ih =>
    intro db rejs k out h
    rw [tryApplyRows] at h
    by_cases hf : failAt = some k
    · simp [hf] at h
    · rw [if_neg hf] at h
      have h2 := ih _ _ _ _ h
      simp only [applyRows]
      exact ⟨h2.1, by rw [h2.2, List.append_assoc]⟩

theorem tryApplyRows_fail (j : Nat) :
    ∀ (rows : List Row) (db : DB) (rejs : List Nat) (k : Nat),
      k ≤ j → j < k + rows.length →
      tryApplyRows (some j) db rejs rows k = none := by
  intro rows
  induction rows with
  | nil => intro db rejs k h1 h2; simp at h2; omega
  | cons r rs ih =>
    intro db rejs k h1 h2
    rw [tryApplyRows]
    by_cases hf : j = k
    · rw [if_pos (by rw [hf])]
    · rw [if_neg (by simpa using hf)]
      exact ih _ _ (k + 1) (by omega) (by simp at h2; omega)

/-- Claim C1: every `flush()` is atomic. If the transaction did not
commit, the database is exactly as before the flush and no identifier
was reported; if it committed, the database and the rejected-id report
are exactly those of applying every buffered row in order within the one
transaction; and a failure simulated at any point strictly inside the
buffer makes the flush roll back, so none of that batch's rows are
visible afterwards. -/
theorem flush_atomic (db : DB) (buffer : List Row) (failAt : Option Nat) :
    ((flush db buffer failAt).committed = false →
      (flush db buffer failAt).db = db ∧ (flush db buffer failAt).rejected = []) ∧
    ((flush db buffer failAt).committed = true →
      (flush db buffer failAt).db = (applyRows db buffer).1 ∧
      (flush db buffer failAt).rejected = (applyRows db buffer).2) ∧
    (∀ k, failAt = some k → k < buffer.length →
      (flush db buffer failAt).committed = false ∧ (flush db buffer failAt).db = db) := by
  refine ⟨?_, ?_, ?_⟩
  · intro h
    cases htry : tryApplyRows failAt db [] buffer 0 with
    | some out => simp [flush, htry] at h
    | none => simp [flush, htry]
  · intro h
    cases htry : tryApplyRows failAt db [] buffer 0 with
    | some out =>
      have h2 := tryApplyRows_some failAt buffer db [] 0 out htry
      simp [flush, htry, h2.1, h2.2]
    | none => simp [flush, htry] at h
  · intro k hk hlen
    have hnone : tryApplyRows failAt db [] buffer 0 = none := by
      rw [hk]
      exact tryApplyRows_fail k buffer db [] 0 (by omega) (by omega)
    simp [flush, hnone]

/-- Concrete instance of `flush_atomic`: a failure before the second row
of a two-row batch leaves the database untouched, while the same batch
without a failure commits to the sequential application. -/
theorem flush_atomic_witness :
    (flush ⟨[5], [10], [], [], []⟩ [Row.entity 11, Row.assoc 7 99 1] (some 1)).committed =
      false ∧
    (flush ⟨[5], [10], [], [], []⟩ [Row.entity 11, Row.assoc 7 99 1] (some 1)).db =
      ⟨[5], [10], [], [], []⟩ ∧
    (flush ⟨[5], [10], [], [], []⟩ [Row.entity 11] none).db =
      (applyRows ⟨[5], [10], [], [], []⟩ [Row.entity 11]).1 := by
  obtain ⟨h1, h2, h3⟩ :=
    flush_atomic ⟨[5], [10], [], [], []⟩ [Row.entity 11, Row.assoc 7 99 1] (some 1)
  obtain ⟨g1, g2, g3⟩ := flush_atomic ⟨[5], [10], [], [], []⟩ [Row.entity 11] none
  have hmid := h3 1 rfl (by decide)
  exact ⟨hmid.1, hmid.2, (g2 (by decide)).1⟩

theorem insertRow_assocs (db : DB) (r : Row) (t : Nat × Nat × Nat)
    (h : t ∈ (insertRow db r).1.assocs) :
    t ∈ db.assocs ∨ r = Row.assoc t.1 t.2.1 t.2.2 := by
  cases r with
  | entity i =>
    left
    revert h
    simp only [insertRow]
    split <;> simp
  | person i =>
    left
    revert h
    simp only [insertRow]
    split <;> simp
  | entityCat e c =>
    left
    revert h
    simp only [insertRow]
    split
    · split <;> simp
    · simp
  | assoc a e p =>
    revert h
    simp only [insertRow]
    split
    · split
      · exact fun h => Or.inl h
      · intro h
        simp only [List.mem_append, List.mem_singleton] at h
        rcases h with h | h
        · exact Or.inl h
        · subst h
          exact Or.inr rfl
    · exact fun h => Or.inl h

theorem applyRows_assocs_mem :
    ∀ (rows : List Row) (db : DB) (t : Nat × Nat × Nat),
      t ∈ (applyRows db rows).1.assocs →
      t ∈ db.assocs ∨ Row.assoc t.1 t.2.1 t.2.2 ∈ rows := by
  intro rows
  induction rows with
  | nil => intro db t h; exact Or.inl h
  | cons r rs ih =>
    intro db t h
    simp only [applyRows] at h
    rcases ih _ _ h with h1 | h1
    · rcases insertRow_assocs db r t h1 with h2 | h2
      · exact Or.inl h2
      · exact Or.inr (h2 ▸ List.mem_cons_self r rs)
    · exact Or.inr (List.mem_cons_of_mem _ h1)

/-- Claim C5: an association row whose referenced entity id is absent
from the Entity table at its insertion time is rejected from that
insertion (the database is unchanged by it and the offending association
identifier is reported for the failed-id list), the rest of the batch is
applied exactly as if the row were not there, and — provided the tuple
was not already present and no later duplicate of the row occurs in the
batch — the row never appears in the Association table. -/
theorem assoc_integrity (db : DB) (a e p : Nat) (rest : List Row) (h : e ∉ db.entities) :
    insertRow db (.assoc a e p) = (db, some a) ∧
    (applyRows db (.assoc a e p :: rest)).1 = (applyRows db rest).1 ∧
    (applyRows db (.assoc a e p :: rest)).2 = a :: (applyRows db rest).2 ∧
    ((a, e, p) ∉ db.assocs → Row.assoc a e p ∉ rest →
      (a, e, p) ∉ (applyRows db (.assoc a e p :: rest)).1.assocs) := by
  have h1 : insertRow db (.assoc a e p) = (db, some a) := by
    simp [insertRow, h]
  have h2 : (applyRows db (.assoc a e p :: rest)).1 = (applyRows db rest).1 := by
    simp [applyRows, h1]
  refine ⟨h1, h2, by simp [applyRows, h1], ?_⟩
  intro hnot hrow hmem
  rw [h2] at hmem
  rcases applyRows_assocs_mem rest db (a, e, p) hmem with hm | hm
  · exact hnot hm
  · exact hrow hm

/-- Concrete instance of `assoc_integrity`: association 7 references
entity 99, which is not in the Entity table; it is rejected and
reported, the rest of the batch still commits, and the tuple is absent
from the Association table. -/
theorem assoc_integrity_witness :
    insertRow ⟨[], [10], [], [], []⟩ (.assoc 7 99 1) = (⟨[], [10], [], [], []⟩, some 7) ∧
    (applyRows ⟨[], [10], [], [], []⟩ [Row.assoc 7 99 1, Row.entity 11]).2 =
      7 :: (applyRows ⟨[], [10], [], [], []⟩ [Row.entity 11]).2 ∧
    (7, 99, 1) ∉ (applyRows ⟨[], [10], [], [], []⟩ [Row.assoc 7 99 1, Row.entity 11]).1.assocs := by
  obtain ⟨h1, h2, h3, h4⟩ :=
    assoc_integrity ⟨[], [10], [], [], []⟩ 7 99 1 [Row.entity 11] (by decide)
  exact ⟨h1, h3, h4 (by decide) (by decide)⟩

theorem mem_insertEntity (db : DB) (i x : Nat) :
    x ∈ (insertEntity db i).entities ↔ x ∈ db.entities ∨ x = i := by
  simp only [insertEntity, insertRow]
  split
  · rename_i hmem
    constructor
    · exact Or.inl
    · rintro (h2 | h2)
      · exact h2
      · exact h2 ▸ hmem
  · simp [List.mem_append]

theorem process_entities_mono (oc : Nat → Outcome Unit) :
    ∀ (l : List Nat) (db : DB) (x : Nat),
      x ∈ db.entities → x ∈ (process oc db l).db.entities := by
  intro l
  induction l with
  | nil => intro db x h; exact h
  | cons i rest ih =>
    intro db x h
    cases hoc : oc i with
    | success u =>
      simp only [process, hoc]
      exact ih _ _ ((mem_insertEntity db i x).mpr (Or.inl h))
    | permanent =>
      simp only [process, hoc]
      exact ih _ _ h
    | fatal =>
      simp only [process, hoc]
      exact h

theorem process_entities_new (oc : Nat → Outcome Unit) :
    ∀ (l : List Nat) (db : DB) (x : Nat),
      oc x ≠ .success () → x ∉ db.entities →
      x ∉ (process oc db l).db.entities := by
  intro l
  induction l with
  | nil => intro db x _ h; exact h
  | cons i rest ih =>
    intro db x hx h
    cases hoc : oc i with
    | success u =>
      cases u
      simp only [process, hoc]
      refine ih _ _ hx ?_
      rw [mem_insertEntity]
      rintro (h2 | h2)
      · exact h h2
      · exact hx (h2 ▸ hoc)
    | permanent =>
      simp only [process, hoc]
      exact ih _ _ hx h
    | fatal =>
      simp only [process, hoc]
      exact h

theorem process_rerun (oc : Nat → Outcome Unit) :
    ∀ (l : List Nat) (db : DB),
      (∀ x ∈ l, oc x ≠ .success () → x ∉ db.entities) →
      process oc (process oc db l).db
          (l.filter (fun x => decide (x ∉ (process oc db l).db.entities))) =
        ⟨(process oc db l).db, 0, (process oc db l).failed, (process oc db l).fatal⟩ := by
  intro l
  induction l with
  | nil => intro db H; simp [process]
  | cons i rest ih =>
    intro db H
    cases hoc : oc i with
    | success u =>
      cases u
      have hiIn : i ∈ (process oc (insertEntity db i) rest).db.entities :=
        process_entities_mono oc rest (insertEntity db i) i
          ((mem_insertEntity db i i).mpr (Or.inr rfl))
      simp only [process, hoc, List.filter_cons]
      rw [if_neg (by simpa using hiIn)]
      exact ih (insertEntity db i) (fun x hx hxs => by
        have hxdb := H x (List.mem_cons_of_mem _ hx) hxs
        rw [mem_insertEntity]
        rintro (h2 | h2)
        · exact hxdb h2
        · exact hxs (h2 ▸ hoc))
    | permanent =>
      have hiOut : i ∉ (process oc db rest).db.entities :=
        process_entities_new oc rest db i (by rw [hoc]; intro h2; cases h2)
          (H i (List.mem_cons_self i rest) (by rw [hoc]; intro h2; cases h2))
      simp only [process, hoc, List.filter_cons]
      rw [if_pos (by simpa using hiOut)]
      have hrest := ih db (fun x hx hxs => H x (List.mem_cons_of_mem _ hx) hxs)
      simp only [process, hoc, hrest]
    | fatal =>
      have hiOut : i ∉ db.entities :=
        H i (List.mem_cons_self i rest) (by rw [hoc]; intro h2; cases h2)
      simp only [process, hoc, List.filter_cons]
      rw [if_pos (by simpa using hiOut)]
      simp only [process, hoc]

/-- Claim C2: stage execution is idempotent. Running the same stage a
second time against the same work-item set, starting from the database
the first run produced, changes no table (zero additional inserts),
succeeds on nothing new, reproduces exactly the same failed-id list for
permanently-failed items, and reaches the same fatal disposition;
identifiers already present are filtered out up front, so the rerun is a
no-op for them. -/
theorem runStage_idempotent (oc : Nat → Outcome Unit) (db : DB) (items : List Nat) :
    (runStage oc (runStage oc db items).db items).db = (runStage oc db items).db ∧
    (runStage oc (runStage oc db items).db items).result.succeeded = 0 ∧
    (runStage oc (runStage oc db items).db items).result.failed =
      (runStage oc db items).result.failed ∧
    (runStage oc (runStage oc db items).db items).fatal = (runStage oc db items).fatal := by
  have hpend : pendingItems (process oc db (pendingItems db items)).db items =
      (pendingItems db items).filter
        (fun x => decide (x ∉ (process oc db (pendingItems db items)).db.entities)) := by
    rw [pendingItems, pendingItems, List.filter_filter]
    apply List.filter_congr
    intro x hx
    by_cases hxdb : x ∈ db.entities
    · have hs1 : x ∈ (process oc db (pendingItems db items)).db.entities :=
        process_entities_mono oc (pendingItems db items) db x hxdb
      simp [pendingItems] at hs1
      simp [hs1, hxdb]
    · simp [hxdb]
  have H : ∀ x ∈ pendingItems db items, oc x ≠ .success () → x ∉ db.entities := by
    intro x hx _
    rw [pendingItems, List.mem_filter] at hx
    exact of_decide_eq_true hx.2
  have hmain := process_rerun oc (pendingItems db items) db H
  refine ⟨?_, ?_, ?_, ?_⟩
  · show (process oc (process oc db (pendingItems db items)).db
        (pendingItems (process oc db (pendingItems db items)).db items)).db =
      (process oc db (pendingItems db items)).db
    rw [hpend, hmain]
  · show (process oc (process oc db (pendingItems db items)).db
        (pendingItems (process oc db (pendingItems db items)).db items)).succeeded = 0
    rw [hpend, hmain]
  · show (process oc (process oc db (pendingItems db items)).db
        (pendingItems (process oc db (pendingItems db items)).db items)).failed =
      (process oc db (pendingItems db items)).failed
    rw [hpend, hmain]
  · show (process oc (process oc db (pendingItems db items)).db
        (pendingItems (process oc db (pendingItems db items)).db items)).fatal =
      (process oc db (pendingItems db items)).fatal
    rw [hpend, hmain]

/-- Claim C4: a work item whose terminal outcome is Fatal makes the
stage runner stop accepting new work at once (the remaining items are
never processed and nothing further is committed); a stage whose run
surfaced a fatal error aborts the multi-stage run, so no subsequent
stage executes, and the process exit code is non-zero; and any run whose
fatal flag is clear exits 0, regardless of the per-stage failed-id
lists. -/
theorem orchestrator_fatal_exit (oc : Nat → Outcome Unit) (i : Nat) (l : List Nat) (db0 : DB)
    (st : StageSpec) (rest : List StageSpec) (db : DB) (stages : List StageSpec) (db2 : DB) :
    (oc i = .fatal → process oc db0 (i :: l) = ⟨db0, 0, [], true⟩) ∧
    ((runStage st.outcome db st.items).fatal = true →
      runAll db (st :: rest) =
        ⟨(runStage st.outcome db st.items).db,
         [(runStage st.outcome db st.items).result], true⟩ ∧
      exitCode (runAll db (st :: rest)).fatal ≠ 0) ∧
    ((runAll db2 stages).fatal = false → exitCode (runAll db2 stages).fatal = 0) := by
  refine ⟨fun h => by simp [process, h], fun h => ?_, fun h => by simp [exitCode, h]⟩
  constructor
  · simp [runAll, h]
  · simp [runAll, h, exitCode]

/-- Concrete instance of `orchestrator_fatal_exit`: a stage whose every
item is fatal aborts before its successor runs and exits non-zero; a
stage with only a permanent failure (non-empty failed list) exits 0. -/
theorem orchestrator_fatal_exit_witness :
    process (fun _ => Outcome.fatal) ⟨[], [], [], [], []⟩ (1 :: [2]) =
      ⟨⟨[], [], [], [], []⟩, 0, [], true⟩ ∧
    exitCode (runAll ⟨[], [], [], [], []⟩
      (⟨fun _ => Outcome.fatal, [1]⟩ :: [⟨fun _ => Outcome.success (), [2]⟩])).fatal ≠ 0 ∧
    exitCode (runAll ⟨[], [], [], [], []⟩ [⟨fun _ => Outcome.permanent, [3]⟩]).fatal = 0 := by
  obtain ⟨h1, h2, h3⟩ :=
    orchestrator_fatal_exit (fun _ => Outcome.fatal) 1 [2] ⟨[], [], [], [], []⟩
      ⟨fun _ => Outcome.fatal, [1]⟩ [⟨fun _ => Outcome.success (), [2]⟩] ⟨[], [], [], [], []⟩
      [⟨fun _ => Outcome.permanent, [3]⟩] ⟨[], [], [], [], []⟩
  exact ⟨h1 rfl, (h2 rfl).2, h3 rfl⟩

/-- Claim C7: on the 3-identifier scenario in which ids 1 and 2 fetch
valid data and id 3 answers not-found (a permanent classification via
the retry loop), `runStage` on an empty store returns succeeded = 2,
skipped = 0 and failed = [3], the Entity table gains exactly the two
rows 1 and 2, and the process exit code of the run is 0. -/
theorem end_to_end_scenario :
    (runStage (fun i => retryLoop defaultMaxAttempts
        (fun _ => if i = 3 then Attempt.err .notFound else Attempt.ok ()))
      ⟨[], [], [], [], []⟩ [1, 2, 3]).result = ⟨2, 0, [3]⟩ ∧
    (runStage (fun i => retryLoop defaultMaxAttempts
        (fun _ => if i = 3 then Attempt.err .notFound else Attempt.ok ()))
      ⟨[], [], [], [], []⟩ [1, 2, 3]).db.entities = [1, 2] ∧
    exitCode (runAll ⟨[], [], [], [], []⟩
      [⟨fun i => retryLoop defaultMaxAttempts
          (fun _ => if i = 3 then Attempt.err .notFound else Attempt.ok ()), [1, 2, 3]⟩]).fatal =
      0 := by
  refine ⟨by decide, by decide, by decide⟩

/-- Claim C6: for every concurrency ceiling N, every state the worker
pool can reach from the initial state — under any interleaving of
submissions, task starts and task completions — has at most N tasks in
flight: a task starts only when a slot is free, so submissions beyond
the ceiling stay queued. -/
theorem pool_concurrency_bound (N : Nat) (s : PoolState) (h : PoolReachable N s) :
    s.inFlight ≤ N := by
  have h2 : Relation.ReflTransGen (PoolStep N) poolInit s := h
  clear h
  induction h2 with
  | refl => simp [poolInit]
  | tail hsteps step ih =>
    cases step with
    | submit => simpa using ih
    | start hq hn => simp; omega
    | finish hf => simp; omega

/-- Concrete instance of `pool_concurrency_bound`: after one submission
and one task start under ceiling 2, the reached state respects the
bound. -/
theorem pool_concurrency_bound_witness : (⟨0, 1, 0⟩ : PoolState).inFlight ≤ 2 := by
  have h1 : PoolStep 2 poolInit ⟨1, 0, 0⟩ := PoolStep.submit poolInit
  have h2 : PoolStep 2 ⟨1, 0, 0⟩ ⟨0, 1, 0⟩ :=
    PoolStep.start ⟨1, 0, 0⟩ (by decide) (by decide)
  exact pool_concurrency_bound 2 ⟨0, 1, 0⟩
    (Relation.ReflTransGen.tail (Relation.ReflTransGen.single h1) h2)

/-- Claim C8: `searchMovies` always issues `GET /movies/search/` with
`query` and `page` in the params (with `page` defaulting to 1 and no
filter keys at all when the options object is left at its defaults), and
each of `year`, `language`, `genre`, `status` is a param key exactly
when the supplied value is truthy — an empty-string or omitted filter is
never sent, and a truthy one is sent with its supplied value. -/
theorem searchMovies_params (query : String) (opts : SearchOpts) :
    (searchMovies query opts).url = "/movies/search/" ∧
    ("query", query) ∈ (searchMovies query opts).params ∧
    ("page", toString opts.page) ∈ (searchMovies query opts).params ∧
    (searchMovies query {}).params = [("query", query), ("page", "1")] ∧
    ("year" ∈ paramKeys (searchMovies query opts) ↔ truthy opts.year = true) ∧
    ("language" ∈ paramKeys (searchMovies query opts) ↔ truthy opts.language = true) ∧
    ("genre" ∈ paramKeys (searchMovies query opts) ↔ truthy opts.genre = true) ∧
    ("status" ∈ paramKeys (searchMovies query opts) ↔ truthy opts.status = true) ∧
    (truthy opts.year = true → ("year", opts.year) ∈ (searchMovies query opts).params) ∧
    (truthy opts.language = true →
      ("language", opts.language) ∈ (searchMovies query opts).params) ∧
    (truthy opts.genre = true → ("genre", opts.genre) ∈ (searchMovies query opts).params) ∧
    (truthy opts.status = true → ("status", opts.status) ∈ (searchMovies query opts).params) := by
  cases hy : truthy opts.year <;> cases hl : truthy opts.language <;>
    cases hg : truthy opts.genre <;> cases hs : truthy opts.status <;>
    simp [searchMovies, paramKeys, hy, hl, hg, hs] <;> exact ⟨rfl, rfl⟩

/-- Concrete instance of `searchMovies_params`: with a truthy year and a
falsy language, the year key is present with its value and the language
key is governed by its truthiness. -/
theorem searchMovies_params_witness :
    ("year" ∈ paramKeys (searchMovies "m" ⟨2, "2020", "", "", "Released"⟩) ↔
      truthy "2020" = true) ∧
    ("language" ∈ paramKeys (searchMovies "m" ⟨2, "2020", "", "", "Released"⟩) ↔
      truthy "" = true) ∧
    ("year", "2020") ∈ (searchMovies "m" ⟨2, "2020", "", "", "Released"⟩).params := by
  obtain ⟨h1, h2, h3, h4, h5, h6, h7, h8, h9, h10, h11, h12⟩ :=
    searchMovies_params "m" ⟨2, "2020", "", "", "Released"⟩
  exact ⟨h5, h6, h9 (by decide)⟩

/-- Claim C9: whenever some filter is active, the `search` closure of
`SearchPage` sets the total page count to the ceiling of the response's
`total_count` divided by the fixed constant 20 (characterised below as
the natural-number ceiling), issues exactly the `searchMovies` request
built from the filters — a request that carries no page-size parameter,
so the count is independent of any backend page size — and stores the
response's results; whenever no filter field is truthy it issues no
request, sets the movie list to empty, and sets the page count to 1. -/
theorem searchPage_totalPages (f : Filters) (page : Nat) (resp : SearchResponse) :
    (hasActiveFilters f = true →
      (searchPageSearch f page resp).totalPages = (resp.total_count + 19) / 20 ∧
      resp.total_count ≤ 20 * (searchPageSearch f page resp).totalPages ∧
      20 * (searchPageSearch f page resp).totalPages < resp.total_count + 20 ∧
      (searchPageSearch f page resp).request =
        some (searchMovies f.query ⟨page, f.year, f.language, f.genre, f.status⟩) ∧
      (∀ v, ("limit", v) ∉
        (searchMovies f.query ⟨page, f.year, f.language, f.genre, f.status⟩).params) ∧
      (searchPageSearch f page resp).movies = resp.results) ∧
    (hasActiveFilters f = false →
      (searchPageSearch f page resp).request = none ∧
      (searchPageSearch f page resp).movies = [] ∧
      (searchPageSearch f page resp).totalPages = 1) := by
  constructor
  · intro h
    refine ⟨by simp [searchPageSearch, h], ?_, ?_, by simp [searchPageSearch, h], ?_,
      by simp [searchPageSearch, h]⟩
    · simp only [searchPageSearch, h, if_true]
      omega
    · simp only [searchPageSearch, h, if_true]
      omega
    · intro v
      cases hy : truthy f.year <;> cases hl : truthy f.language <;>
        cases hg : truthy f.genre <;> cases hs : truthy f.status <;>
        simp [searchMovies, hy, hl, hg, hs]
  · intro h
    simp [searchPageSearch, h]

/-- Concrete instance of `searchPage_totalPages`: a query-only search
over a 41-result total yields 3 pages, and the all-empty filter state
issues no request. -/
theorem searchPage_totalPages_witness :
    (searchPageSearch ⟨"m", "", "", "", ""⟩ 1 ⟨[4, 8], 41⟩).totalPages = 3 ∧
    (searchPageSearch ⟨"", "", "", "", ""⟩ 1 ⟨[4, 8], 41⟩).request = none := by
  obtain ⟨ha, _⟩ := searchPage_totalPages ⟨"m", "", "", "", ""⟩ 1 ⟨[4, 8], 41⟩
  obtain ⟨_, hb⟩ := searchPage_totalPages ⟨"", "", "", "", ""⟩ 1 ⟨[4, 8], 41⟩
  exact ⟨((ha (by decide)).1).trans (by decide), (hb (by decide)).1⟩

theorem mem_uniqueFold (l : List Nat) : ∀ (acc : List Nat) (i : Nat),
    (i ∈ l.foldl (fun acc j => if j ∈ acc then acc else acc ++ [j]) acc) ↔
      i ∈ acc ∨ i ∈ l := by
  induction l with
  | nil => simp
  | cons j l ih =>
    intro acc i
    simp only [List.foldl_cons]
    by_cases hj : j ∈ acc
    · rw [if_pos hj, ih]
      simp only [List.mem_cons]
      constructor
      · rintro (h | h)
        · exact Or.inl h
        · exact Or.inr (Or.inr h)
      · rintro (h | h | h)
        · exact Or.inl h
        · exact Or.inl (h ▸ hj)
        · exact Or.inr h
    · rw [if_neg hj, ih]
      simp [List.mem_append, List.mem_cons, or_assoc]

theorem nodup_uniqueFold (l : List Nat) : ∀ acc : List Nat, acc.Nodup →
    (l.foldl (fun acc j => if j ∈ acc then acc else acc ++ [j]) acc).Nodup := by
  induction l with
  | nil => intro acc h; simpa using h
  | cons j l ih =>
    intro acc hacc
    simp only [List.foldl_cons]
    by_cases hj : j ∈ acc
    · rw [if_pos hj]; exact ih acc hacc
    · rw [if_neg hj]
      exact ih _ (by simp [List.nodup_append, hacc, hj])

/-- Claim C10: `MovieDetail` requests person details exactly once per
distinct `person_id` in the credits list — the requested-id list has no
duplicates, contains precisely the person ids occurring in the credits,
and is exactly the key list of the cast-details map — every credit's
person id has an entry in that map, and each entry's value is the
outcome of its single fetch, so a failed request yields `none` (null)
for that id rather than failing the page load. -/
theorem movieDetail_castDetails (fetch : Nat → Option Nat) (credits : List Credit) (c : Credit)
    (hc : c ∈ credits) :
    (uniquePersonIds (credits.map (·.person_id))).Nodup ∧
    (∀ i, i ∈ uniquePersonIds (credits.map (·.person_id)) ↔
      ∃ cr ∈ credits, cr.person_id = i) ∧
    (buildCastDetails fetch credits).map Prod.fst = uniquePersonIds (credits.map (·.person_id)) ∧
    (c.person_id, fetch c.person_id) ∈ buildCastDetails fetch credits ∧
    (∀ i v, (i, v) ∈ buildCastDetails fetch credits → v = fetch i) := by
  refine ⟨nodup_uniqueFold _ [] (by simp), ?_, ?_, ?_, ?_⟩
  · intro i
    rw [uniquePersonIds, mem_uniqueFold]
    simp [List.mem_map, eq_comm]
  · simp [buildCastDetails, List.map_map, Function.comp_def]
  · rw [buildCastDetails]
    have h2 : c.person_id ∈ uniquePersonIds (credits.map (·.person_id)) := by
      rw [uniquePersonIds, mem_uniqueFold]
      exact Or.inr (List.mem_map_of_mem _ hc)
    exact List.mem_map_of_mem _ h2
  · intro i v hv
    rw [buildCastDetails] at hv
    obtain ⟨j, _, hj⟩ := List.mem_map.mp hv
    obtain ⟨h1, h2⟩ := Prod.mk.injEq .. ▸ hj
    exact h2.symm.trans (by rw [h1])

/-- Concrete instance of `movieDetail_castDetails`: three credits over
two distinct persons produce a duplicate-free request list, and a
credit's entry carries its fetch result. -/
theorem movieDetail_castDetails_witness :
    ((3 : Nat), (some 3 : Option Nat)) ∈
      buildCastDetails (fun i => if i = 1 then none else some i)
        [⟨10, 3⟩, ⟨11, 1⟩, ⟨12, 3⟩] ∧
    (uniquePersonIds (([⟨10, 3⟩, ⟨11, 1⟩, ⟨12, 3⟩] : List Credit).map (·.person_id))).Nodup := by
  obtain ⟨h1, h2, h3, h4, h5⟩ :=
    movieDetail_castDetails (fun i => if i = 1 then none else some i)
      [⟨10, 3⟩, ⟨11, 1⟩, ⟨12, 3⟩] ⟨10, 3⟩ (by decide)
  exact ⟨h4, h1⟩

end RecSys

